import Mathlib

/-!
# Prover API of go-proto-danksharding-crypto (`api/prove.go`)

A shallow embedding of the four entry points of `api/prove.go`

* `Context.BlobToCommitment`
* `Context.BlobsToCommitments`
* `Context.ComputeBlobKZGProof`
* `Context.ComputeKZGProof`

The functions of the packages `serialization` and `internal/kzg` that
`prove.go` calls are collected in the record `Deps`; the entry points are
written over an arbitrary `Deps`, following the Go control flow statement by
statement.  A second part instantiates `Deps` with the codec, commitment and
opening functions as the specification describes them.
-/

namespace Danksharding

/-! ## Wire types -/

/-- One octet. -/
abbrev Byte := Fin 256

/-- The Go array type `[n]byte`. -/
abbrev Bytes (n : Nat) := { l : List Byte // l.length = n }

/-- The zero value of `[n]byte`, as produced by the composite literal `[n]byte{}`. -/
def Bytes.zero (n : Nat) : Bytes n := ⟨List.replicate n 0, by simp⟩

/-- Modelled from the spec: `serialization.Blob` (its declaration is not among the
sources).  A byte buffer; §4.1 lets `DeserializeBlob` reject a wrong length, so the
length is not fixed by the type. -/
abbrev Blob := List Byte

/-- Modelled from the spec: `serialization.Scalar`, 32 bytes (§3, §6); `prove.go`
returns `[32]byte{}` at this type. -/
abbrev Scalar := Bytes 32

/-- Modelled from the spec: a compressed G1 point, 48 bytes (§3, §6). -/
abbrev G1Point := Bytes 48

/-- Modelled from the spec: `serialization.Commitment`, a compressed G1 point. -/
abbrev Commitment := G1Point

/-- Modelled from the spec: `serialization.KZGProof`, a compressed G1 point. -/
abbrev KZGProof := G1Point

/-- The Go slice type `serialization.Commitments`; the `nil` slice is the empty list. -/
abbrev Commitments := List Commitment

/-! ## The receiver and the callees of `prove.go` -/

/-- The receiver `*Context`: `prove.go` reads its fields `commitKey` and `domain`. -/
structure Context (CommitKey Domain : Type) where
  commitKey : CommitKey
  domain : Domain

/-- The value `kzg.Open` returns: `prove.go` reads `QuotientComm` and `ClaimedValue`. -/
structure OpeningProof (G1Affine Fr : Type) where
  QuotientComm : G1Affine
  ClaimedValue : Fr

/-- The functions `prove.go` calls and does not define, with the shapes of their call
sites.  A Go result `(v, err)` of a callee is an `Except`: `prove.go` never reads `v`
when `err != nil`. -/
structure Deps (ε Polynomial G1Affine Fr CommitKey Domain : Type) where
  /-- The call `serialization.DeserializeBlobs(blobs)`. -/
  DeserializeBlobs : List Blob → Except ε (List Polynomial)
  /-- The call `serialization.DeserializeBlob(blob)`. -/
  DeserializeBlob : Blob → Except ε Polynomial
  /-- The call `serialization.DeserializeScalar(inputPointBytes)`. -/
  DeserializeScalar : Scalar → Except ε Fr
  /-- The call `serialization.DeserializeG1Point(serializedComm)`. -/
  DeserializeG1Point : Commitment → Except ε G1Affine
  /-- The call `kzg.CommitToPolynomials(polys, c.commitKey)`. -/
  CommitToPolynomials : List Polynomial → CommitKey → Except ε (List G1Affine)
  /-- The call `kzg.Open(c.domain, poly, point, c.commitKey)`. -/
  Open : Domain → Polynomial → Fr → CommitKey → Except ε (OpeningProof G1Affine Fr)
  /-- The call `computeChallenge(blob, serializedComm)`. -/
  computeChallenge : Blob → Commitment → Fr
  /-- The call `serialization.SerializeG1Point(p)`. -/
  SerializeG1Point : G1Affine → G1Point
  /-- The call `serialization.SerializeG1Points(comms)`. -/
  SerializeG1Points : List G1Affine → Commitments
  /-- The call `serialization.SerializeScalar(x)`. -/
  SerializeScalar : Fr → Scalar

section Prove

variable {ε Polynomial G1Affine Fr CommitKey Domain : Type}

/-- The method `func (c *Context) BlobsToCommitments(blobs []serialization.Blob)
(serialization.Commitments, error)`.  The pair is the Go result; `none` is the `nil`
error and `[]` the `nil` slice. -/
def BlobsToCommitments (D : Deps ε Polynomial G1Affine Fr CommitKey Domain)
    (c : Context CommitKey Domain) (blobs : List Blob) : Commitments × Option ε :=
  -- 1. Deserialize the Blobs into polynomial objects
  match D.DeserializeBlobs blobs with
  | .error err => ([], some err)
  | .ok polys =>
    -- 2. Commit to polynomials
    match D.CommitToPolynomials polys c.commitKey with
    | .error err => ([], some err)
    | .ok comms =>
      -- 3. Serialize commitments
      let serComms := D.SerializeG1Points comms
      (serComms, none)

/-- The method `func (c *Context) BlobToCommitment(blob serialization.Blob)
(serialization.Commitment, error)`.  The outer `Option` is the outcome of the call:
`none` is the run-time panic of the index expression `commitments[0]` on an empty
slice, `some` the returned pair. -/
def BlobToCommitment (D : Deps ε Polynomial G1Affine Fr CommitKey Domain)
    (c : Context CommitKey Domain) (blob : Blob) : Option (Commitment × Option ε) :=
  match BlobsToCommitments D c [blob] with
  | (_, some err) => some (Bytes.zero 48, some err)
  | (commitments, none) =>
    match commitments[0]? with
    | none => none
    | some commitment => some (commitment, none)

/-- The method `func (c *Context) ComputeBlobKZGProof(blob serialization.Blob, serializedComm
serialization.Commitment) (serialization.KZGProof, serialization.Scalar, error)`. -/
def ComputeBlobKZGProof (D : Deps ε Polynomial G1Affine Fr CommitKey Domain)
    (c : Context CommitKey Domain) (blob : Blob) (serializedComm : Commitment) :
    KZGProof × Scalar × Option ε :=
  -- 1. Deserialize the Blob into a polynomial
  match D.DeserializeBlob blob with
  | .error err => (Bytes.zero 48, Bytes.zero 32, some err)
  | .ok poly =>
    -- Deserialize the commitment; the decoded point is discarded
    match D.DeserializeG1Point serializedComm with
    | .error err => (Bytes.zero 48, Bytes.zero 32, some err)
    | .ok _ =>
      -- 2. Compute Fiat-Shamir challenge
      let evaluationChallenge := D.computeChallenge blob serializedComm
      -- 3. Create opening proof
      match D.Open c.domain poly evaluationChallenge c.commitKey with
      | .error err => (Bytes.zero 48, Bytes.zero 32, some err)
      | .ok openingProof =>
        -- 4. Serialize values
        let serProof := D.SerializeG1Point openingProof.QuotientComm
        let claimedValueBytes := D.SerializeScalar openingProof.ClaimedValue
        (serProof, claimedValueBytes, none)

/-- The method `func (c *Context) ComputeKZGProof(blob serialization.Blob, inputPointBytes
serialization.Scalar) (serialization.KZGProof, serialization.Scalar, error)`. -/
def ComputeKZGProof (D : Deps ε Polynomial G1Affine Fr CommitKey Domain)
    (c : Context CommitKey Domain) (blob : Blob) (inputPointBytes : Scalar) :
    KZGProof × Scalar × Option ε :=
  -- 1. Deserialize the Blob into a polynomial
  match D.DeserializeBlob blob with
  | .error err => (Bytes.zero 48, Bytes.zero 32, some err)
  | .ok poly =>
    -- 2. Deserialize input point
    match D.DeserializeScalar inputPointBytes with
    | .error err => (Bytes.zero 48, Bytes.zero 32, some err)
    | .ok inputPoint =>
      -- 3. Create opening proof
      match D.Open c.domain poly inputPoint c.commitKey with
      | .error err => (Bytes.zero 48, Bytes.zero 32, some err)
      | .ok openingProof =>
        -- 4. Serialize values
        let serProof := D.SerializeG1Point openingProof.QuotientComm
        let claimedValueBytes := D.SerializeScalar openingProof.ClaimedValue
        (serProof, claimedValueBytes, none)

end Prove

/-! ## The callees as the specification describes them

The packages `serialization` and `internal/kzg` are not among the sources.  The
definitions below follow the specification (§3, §4, §7); what the specification
leaves to the arithmetic library, or does not fix, is a field of `Primitives`. -/

/-- Modelled from the spec: the error kinds of §7 (the package `serialization` that
declares the error values is not among the sources). -/
inductive Err where
  | InvalidBlobLength
  | InvalidFieldElement
  | InvalidEncoding
  | NotInSubgroup
  deriving DecidableEq, Repr

/-- Modelled from the spec: the evaluation domain of §3 (package `internal/kzg`, not
among the sources): the roots of unity, the `i`-th entry being the `i`-th root. -/
structure Domain (r : Nat) where
  roots : List (ZMod r)

/-- What the specification takes from the field and group arithmetic library (§2, §6:
point decompression, subgroup test, point compression, multi-scalar multiplication),
and the two functions it names without fixing their values: the quotient of `Divide`
(§4.2) and the hash-derived scalar of `ComputeChallenge` (§4.5).  `r` is the modulus of
the scalar field and `G1` the type of curve points. -/
structure Primitives (r : Nat) (G1 : Type) where
  /-- Decompression of 48 bytes to a curve point; `none` on malformed bytes. -/
  decompress : G1Point → Option G1
  /-- Membership in the prime-order subgroup. -/
  inSubgroup : G1 → Bool
  /-- Compression of a curve point to 48 bytes. -/
  compress : G1 → G1Point
  /-- Multi-scalar multiplication of scalars against points. -/
  multiExp : List (ZMod r) → List G1 → G1
  /-- The quotient polynomial `(p(X) - p(z)) / (X - z)` in evaluation form. -/
  Divide : Domain r → List (ZMod r) → ZMod r → List (ZMod r)
  /-- The Fiat-Shamir challenge of a blob and a serialized commitment. -/
  computeChallenge : Blob → Commitment → ZMod r

/-- Big-endian value of a byte string. -/
def decodeBE (bs : List Byte) : Nat :=
  bs.foldl (fun acc b => acc * 256 + b.val) 0

/-- Big-endian encoding of `n` on `w` bytes (the low `8 * w` bits of `n`). -/
def encodeBE : Nat → Nat → List Byte
  | 0, _ => []
  | w + 1, n => encodeBE w (n / 256) ++ [⟨n % 256, Nat.mod_lt n (by decide)⟩]

deriving instance DecidableEq for Except

/-- Run `f` over a list from the left, stopping at the first failure. -/
def traverse {ε α β : Type} (f : α → Except ε β) : List α → Except ε (List β)
  | [] => .ok []
  | a :: as =>
    match f a with
    | .error e => .error e
    | .ok b =>
      match traverse f as with
      | .error e => .error e
      | .ok bs => .ok (b :: bs)

section Model

variable {r : Nat} {G1 : Type}

/-- Modelled from the spec: the canonical decoding of one scalar chunk (§4.1, §6):
32 bytes, big-endian, value below the field modulus; `InvalidFieldElement` on
overflow or wrong length. -/
def deserializeChunk (r : Nat) (bs : List Byte) : Except Err (ZMod r) :=
  if bs.length = 32 ∧ decodeBE bs < r then .ok ((decodeBE bs : Nat) : ZMod r)
  else .error .InvalidFieldElement

/-- Modelled from the spec: `serialization.DeserializeScalar` (§4.1), not among the
sources. -/
def DeserializeScalar (r : Nat) (b : Scalar) : Except Err (ZMod r) :=
  deserializeChunk r b.val

/-- Modelled from the spec: `serialization.SerializeScalar` (§4.1, §6), not among the
sources: 32 bytes, canonical, big-endian; total. -/
def SerializeScalar (x : ZMod r) : Scalar :=
  ⟨encodeBE 32 x.val, by
    have h : ∀ w n, (encodeBE w n).length = w := by
      intro w
      induction w with
      | zero => intro n; rfl
      | succ w ih => intro n; simp [encodeBE, ih]
    exact h 32 _⟩

/-- The `i`-th 32-byte window of a blob. -/
def blobChunk (blob : Blob) (i : Nat) : List Byte :=
  (blob.drop (32 * i)).take 32

/-- Modelled from the spec: `serialization.DeserializeBlob` (§4.1), not among the
sources: `InvalidBlobLength` unless the length is `N * 32`; otherwise the `N` chunks
are decoded in order, failing with `InvalidFieldElement` on a non-canonical chunk. -/
def DeserializeBlob (r N : Nat) (blob : Blob) : Except Err (List (ZMod r)) :=
  if blob.length = N * 32 then
    traverse (deserializeChunk r) ((List.range N).map (blobChunk blob))
  else .error .InvalidBlobLength

/-- Modelled from the spec: `serialization.DeserializeBlobs`, not among the sources:
the batch wrapper of §9 that maps the per-item function over the sequence and fails
on the first invalid item (§4.3: the batch fails if any blob fails to deserialize). -/
def DeserializeBlobs (r N : Nat) (blobs : List Blob) : Except Err (List (List (ZMod r))) :=
  traverse (DeserializeBlob r N) blobs

/-- Modelled from the spec: `serialization.DeserializeG1Point` (§4.1), not among the
sources: `InvalidEncoding` on malformed bytes, `NotInSubgroup` for a decoded point
outside the prime-order subgroup. -/
def DeserializeG1Point (X : Primitives r G1) (b : G1Point) : Except Err G1 :=
  match X.decompress b with
  | none => .error .InvalidEncoding
  | some p => if X.inSubgroup p then .ok p else .error .NotInSubgroup

/-- Modelled from the spec: `serialization.SerializeG1Point` (§4.1), not among the
sources: total. -/
def SerializeG1Point (X : Primitives r G1) (p : G1) : G1Point :=
  X.compress p

/-- Modelled from the spec: `serialization.SerializeG1Points` (§4.1), not among the
sources: the batch form of `SerializeG1Point`. -/
def SerializeG1Points (X : Primitives r G1) (ps : List G1) : Commitments :=
  ps.map (SerializeG1Point X)

/-- Modelled from the spec: `kzg.CommitToPolynomial` (§4.3), not among the sources: the
multi-scalar multiplication of the polynomial's values against the first `N` entries
of the commitment key; no failure. -/
def CommitToPolynomial (X : Primitives r G1) (N : Nat) (poly : List (ZMod r))
    (key : List G1) : G1 :=
  X.multiExp poly (key.take N)

/-- Modelled from the spec: `kzg.CommitToPolynomials` (§4.3), not among the sources:
one independent commitment per polynomial.  The result is an `Except` because
`prove.go` receives an error value from the call; by §4.3 and §7 none is produced. -/
def CommitToPolynomials (X : Primitives r G1) (N : Nat) (polys : List (List (ZMod r)))
    (key : List G1) : Except Err (List G1) :=
  .ok (polys.map (fun poly => CommitToPolynomial X N poly key))

/-- The `i`-th Lagrange basis polynomial of the domain, evaluated at `z`. -/
def lagrangeBasis (roots : List (ZMod r)) (i : Nat) (z : ZMod r) : ZMod r :=
  (((List.range roots.length).filter (fun j => j ≠ i)).map
    (fun j => (z - roots.getD j 0) * (roots.getD i 0 - roots.getD j 0)⁻¹)).prod

/-- Modelled from the spec: `EvaluateAt` (§4.2), not among the sources: the value at
`z` of the polynomial whose value at the `i`-th domain root is `poly[i]`; by §8
(evaluation consistency) it is the value of the Lagrange interpolant at `z`, for
every `z`. -/
def EvaluateAt (d : Domain r) (poly : List (ZMod r)) (z : ZMod r) : ZMod r :=
  ((List.range d.roots.length).map (fun i => poly.getD i 0 * lagrangeBasis d.roots i z)).sum

/-- Modelled from the spec: `kzg.Open` (§4.4), not among the sources: the claimed value
is `EvaluateAt`, the quotient commitment is the commitment to `Divide`.  The result is
an `Except` because `prove.go` receives an error value from the call; by §4.4 and §7
none is produced. -/
def Open (X : Primitives r G1) (N : Nat) (d : Domain r) (poly : List (ZMod r))
    (evaluationPoint : ZMod r) (key : List G1) : Except Err (OpeningProof G1 (ZMod r)) :=
  let claimedValue := EvaluateAt d poly evaluationPoint
  let quotient := X.Divide d poly evaluationPoint
  let quotientComm := CommitToPolynomial X N quotient key
  .ok { QuotientComm := quotientComm, ClaimedValue := claimedValue }

/-- The callees of `prove.go` as the specification describes them, for `N` field
elements per blob. -/
def specDeps (N : Nat) (X : Primitives r G1) :
    Deps Err (List (ZMod r)) G1 (ZMod r) (List G1) (Domain r) where
  DeserializeBlobs := DeserializeBlobs r N
  DeserializeBlob := DeserializeBlob r N
  DeserializeScalar := DeserializeScalar r
  DeserializeG1Point := DeserializeG1Point X
  CommitToPolynomials := CommitToPolynomials X N
  Open := Open X N
  computeChallenge := X.computeChallenge
  SerializeG1Point := SerializeG1Point X
  SerializeG1Points := SerializeG1Points X
  SerializeScalar := SerializeScalar

end Model

/-! ## A small instance

Modulus 17, four field elements per blob, the domain `1, 4, 16, 13` (the powers of 4,
a primitive fourth root of unity modulo 17).  The cyclic group `ZMod 34` stands for the
curve group: its even elements are the subgroup of prime order 17. -/

/-- Primitives of the small instance: a point is encoded as 48 big-endian bytes. -/
def toyPrimitives : Primitives 17 (ZMod 34) where
  decompress := fun b =>
    if decodeBE b.val < 34 then some ((decodeBE b.val : Nat) : ZMod 34) else none
  inSubgroup := fun p => decide (p.val % 2 = 0)
  compress := fun p =>
    ⟨List.replicate 47 0 ++ [⟨p.val % 256, Nat.mod_lt _ (by decide)⟩], by simp⟩
  multiExp := fun scalars points =>
    (List.zipWith (fun s p => ((s.val : Nat) : ZMod 34) * p) scalars points).sum
  Divide := fun _ poly _ => poly
  computeChallenge := fun _ _ => 3

/-- The context of the small instance. -/
def toyContext : Context (List (ZMod 34)) (Domain 17) where
  commitKey := [2, 4, 6, 8, 10]
  domain := { roots := [1, 4, 16, 13] }

/-- The callees of the small instance. -/
abbrev toyDeps : Deps Err (List (ZMod 17)) (ZMod 34) (ZMod 17) (List (ZMod 34)) (Domain 17) :=
  specDeps 4 toyPrimitives

/-- The blob whose scalars are the given small values, 32 big-endian bytes each. -/
def toyBlob (values : List Byte) : Blob :=
  values.flatMap (fun value => List.replicate 31 (0 : Byte) ++ [value])

/-- A valid blob of the small instance: the scalars 1, 2, 3, 4. -/
def blobA : Blob := toyBlob [1, 2, 3, 4]

/-- A second valid blob of the small instance: the scalars 5, 6, 7, 8. -/
def blobB : Blob := toyBlob [5, 6, 7, 8]

/-- An invalid blob of the small instance: its third scalar is the modulus. -/
def blobBad : Blob := toyBlob [1, 2, 17, 4]

/-- A serialized point of the small instance with last byte `value`. -/
def toyPoint (value : Byte) : G1Point :=
  ⟨List.replicate 47 0 ++ [value], by simp⟩

end Danksharding

namespace Danksharding

/-! ## Lemmas on the codec -/

theorem traverse_ok_forall₂ {ε α β : Type} (f : α → Except ε β) :
    ∀ (l : List α) (bs : List β), traverse f l = .ok bs →
      List.Forall₂ (fun a b => f a = .ok b) l bs := by
  intro l
  induction l with
  | nil =>
    intro bs h
    simp only [traverse, Except.ok.injEq] at h
    subst h
    exact List.Forall₂.nil
  | cons a as ih =>
    intro bs h
    simp only [traverse] at h
    cases hfa : f a with
    | error e => rw [hfa] at h; simp at h
    | ok b =>
      rw [hfa] at h
      cases hrec : traverse f as with
      | error e => rw [hrec] at h; simp at h
      | ok bs' =>
        rw [hrec] at h
        simp only [Except.ok.injEq] at h
        subst h
        exact List.Forall₂.cons hfa (ih bs' hrec)

theorem traverse_eq_ok_map {ε α β : Type} (f : α → Except ε β) (g : α → β) :
    ∀ (l : List α), (∀ a ∈ l, f a = .ok (g a)) → traverse f l = .ok (l.map g) := by
  intro l
  induction l with
  | nil => intro _; rfl
  | cons a as ih =>
    intro h
    have ha := h a (List.mem_cons_self a as)
    have has := ih (fun x hx => h x (List.mem_cons_of_mem a hx))
    simp [traverse, ha, has]

theorem traverse_error_of_mem {ε α β : Type} (f : α → Except ε β) :
    ∀ (l : List α), (∃ a ∈ l, ∃ e, f a = .error e) → ∃ e, traverse f l = .error e := by
  intro l
  induction l with
  | nil => rintro ⟨a, ha, _⟩; simp at ha
  | cons a as ih =>
    rintro ⟨x, hx, e, hxe⟩
    cases hfa : f a with
    | error e' => exact ⟨e', by simp [traverse, hfa]⟩
    | ok b =>
      have hx' : x ∈ as := by
        rcases List.mem_cons.mp hx with h | h
        · subst h; rw [hfa] at hxe; cases hxe
        · exact h
      obtain ⟨e', he'⟩ := ih ⟨x, hx', e, hxe⟩
      exact ⟨e', by simp [traverse, hfa, he']⟩

theorem traverse_ok_length {ε α β : Type} (f : α → Except ε β) (l : List α) (bs : List β)
    (h : traverse f l = .ok bs) : bs.length = l.length :=
  (traverse_ok_forall₂ f l bs h).length_eq.symm

theorem encodeBE_length : ∀ (w n : Nat), (encodeBE w n).length = w := by
  intro w
  induction w with
  | zero => intro n; rfl
  | succ w ih => intro n; simp [encodeBE, ih]

theorem decodeBE_append_singleton (l : List Byte) (b : Byte) :
    decodeBE (l ++ [b]) = decodeBE l * 256 + b.val := by
  simp [decodeBE, List.foldl_append]

theorem decodeBE_encodeBE : ∀ (w n : Nat), decodeBE (encodeBE w n) = n % 256 ^ w := by
  intro w
  induction w with
  | zero => intro n; simp [encodeBE, decodeBE, Nat.mod_one]
  | succ w ih =>
    intro n
    rw [encodeBE, decodeBE_append_singleton, ih]
    simp only []
    rw [pow_succ, Nat.mul_comm (256 ^ w) 256, Nat.mod_mul]
    omega

theorem encodeBE_decodeBE (bs : List Byte) : encodeBE bs.length (decodeBE bs) = bs := by
  induction bs using List.reverseRecOn with
  | nil => rfl
  | append_singleton l b ih =>
    rw [List.length_append, List.length_singleton, encodeBE, decodeBE_append_singleton]
    have hb : b.val < 256 := b.isLt
    have h1 : (decodeBE l * 256 + b.val) / 256 = decodeBE l := by omega
    have h2 : (decodeBE l * 256 + b.val) % 256 = b.val := by omega
    simp only [h1, h2, ih]

section ModelLemmas

variable {r : Nat} {G1 : Type}

theorem DeserializeScalar_SerializeScalar [NeZero r] (hr : r ≤ 2 ^ 256) (x : ZMod r) :
    DeserializeScalar r (SerializeScalar x) = .ok x := by
  have hx : x.val < r := ZMod.val_lt x
  have hpow : (256 : Nat) ^ 32 = 2 ^ 256 := by norm_num
  have hdec : decodeBE (encodeBE 32 x.val) = x.val := by
    rw [decodeBE_encodeBE, Nat.mod_eq_of_lt (by omega)]
  simp [DeserializeScalar, deserializeChunk, SerializeScalar, encodeBE_length, hdec, hx]

theorem SerializeScalar_of_deserializeChunk (bs : List Byte) (x : ZMod r)
    (h : deserializeChunk r bs = .ok x) : (SerializeScalar x).val = bs := by
  unfold deserializeChunk at h
  split at h
  · rename_i hc
    simp only [Except.ok.injEq] at h
    subst h
    have hv : ((decodeBE bs : Nat) : ZMod r).val = decodeBE bs := ZMod.val_natCast_of_lt hc.2
    show encodeBE 32 ((decodeBE bs : Nat) : ZMod r).val = bs
    rw [hv, ← hc.1]
    exact encodeBE_decodeBE bs
  · cases h

theorem DeserializeBlob_ok_length (N : Nat) (blob : Blob) (poly : List (ZMod r))
    (h : DeserializeBlob r N blob = .ok poly) : poly.length = N := by
  unfold DeserializeBlob at h
  split at h
  · simpa using traverse_ok_length _ _ _ h
  · cases h

theorem DeserializeBlob_ok_chunk (N : Nat) (blob : Blob) (poly : List (ZMod r))
    (h : DeserializeBlob r N blob = .ok poly) (k : Nat) (hk : k < N) :
    deserializeChunk r (blobChunk blob k) = .ok (poly.getD k 0) := by
  have hlen := DeserializeBlob_ok_length N blob poly h
  unfold DeserializeBlob at h
  split at h
  · have hf := traverse_ok_forall₂ _ _ _ h
    have hk1 : k < ((List.range N).map (blobChunk blob)).length := by simpa using hk
    have hk2 : k < poly.length := by omega
    have hget := List.Forall₂.get hf hk1 hk2
    rw [List.getD_eq_getElem _ _ hk2]
    simpa using hget
  · cases h

theorem lagrangeBasis_self [Fact r.Prime] (roots : List (ZMod r)) (hnd : roots.Nodup)
    (k : Nat) (hk : k < roots.length) : lagrangeBasis roots k (roots.getD k 0) = 1 := by
  unfold lagrangeBasis
  apply List.prod_eq_one
  intro x hx
  obtain ⟨j, hj, rfl⟩ := List.mem_map.mp hx
  have hj' := List.mem_filter.mp hj
  have hjlt : j < roots.length := List.mem_range.mp hj'.1
  have hjk : j ≠ k := by simpa using hj'.2
  have hne : roots.getD k 0 - roots.getD j 0 ≠ 0 := by
    rw [List.getD_eq_getElem _ _ hk, List.getD_eq_getElem _ _ hjlt]
    intro h0
    have heq : roots[k] = roots[j] := sub_eq_zero.mp h0
    exact hjk ((List.Nodup.getElem_inj_iff hnd).mp heq).symm
  exact mul_inv_cancel₀ hne

theorem lagrangeBasis_other (roots : List (ZMod r)) (i k : Nat) (hk : k < roots.length)
    (hik : i ≠ k) : lagrangeBasis roots i (roots.getD k 0) = 0 := by
  unfold lagrangeBasis
  apply List.prod_eq_zero
  apply List.mem_map.mpr
  refine ⟨k, List.mem_filter.mpr ⟨List.mem_range.mpr hk, by simpa using hik.symm⟩, ?_⟩
  simp

theorem EvaluateAt_root [Fact r.Prime] (d : Domain r) (hnd : d.roots.Nodup)
    (poly : List (ZMod r)) (k : Nat) (hk : k < d.roots.length) :
    EvaluateAt d poly (d.roots.getD k 0) = poly.getD k 0 := by
  unfold EvaluateAt
  rw [List.sum_map_eq_nsmul_single k]
  · rw [List.count_eq_one_of_mem (List.nodup_range _) (List.mem_range.mpr hk),
      lagrangeBasis_self d.roots hnd k hk]
    simp
  · intro i hik _
    rw [lagrangeBasis_other d.roots i k hk hik, mul_zero]

end ModelLemmas

/-! ## Lemmas on the instantiated entry points -/

section SpecLemmas

variable {r : Nat} {G1 : Type}

theorem DeserializeBlobs_singleton (N : Nat) (blob : Blob) :
    DeserializeBlobs r N [blob] =
      match DeserializeBlob r N blob with
      | .error e => .error e
      | .ok poly => .ok [poly] := by
  unfold DeserializeBlobs
  cases h : DeserializeBlob r N blob <;> simp [traverse, h]

theorem BlobsToCommitments_spec (N : Nat) (X : Primitives r G1)
    (c : Context (List G1) (Domain r)) (blobs : List Blob) :
    BlobsToCommitments (specDeps N X) c blobs =
      match DeserializeBlobs r N blobs with
      | .error e => ([], some e)
      | .ok polys =>
        (polys.map (fun poly => SerializeG1Point X (CommitToPolynomial X N poly c.commitKey)),
          none) := by
  unfold BlobsToCommitments
  simp only [specDeps, CommitToPolynomials, SerializeG1Points, List.map_map]
  cases DeserializeBlobs r N blobs <;> rfl

theorem BlobToCommitment_spec (N : Nat) (X : Primitives r G1)
    (c : Context (List G1) (Domain r)) (blob : Blob) :
    BlobToCommitment (specDeps N X) c blob =
      match DeserializeBlob r N blob with
      | .error e => some (Bytes.zero 48, some e)
      | .ok poly =>
        some (SerializeG1Point X (CommitToPolynomial X N poly c.commitKey), none) := by
  unfold BlobToCommitment
  rw [BlobsToCommitments_spec, DeserializeBlobs_singleton]
  cases DeserializeBlob r N blob <;> rfl

end SpecLemmas

/-! ## The claims -/

section ClaimsSpec

variable {r : Nat} {G1 : Type}

/-- C1 (batch atomicity): if at least one blob of the list fails to deserialize, then
`BlobsToCommitments` returns a non-nil error together with the `nil` list, never a
partial list of commitments. -/
theorem BlobsToCommitments_fails_atomically (N : Nat) (X : Primitives r G1)
    (c : Context (List G1) (Domain r)) (blobs : List Blob)
    (h : ∃ blob ∈ blobs, ∃ e, DeserializeBlob r N blob = .error e) :
    ∃ e, BlobsToCommitments (specDeps N X) c blobs = ([], some e) := by
  obtain ⟨e, he⟩ := traverse_error_of_mem (DeserializeBlob r N) blobs h
  refine ⟨e, ?_⟩
  rw [BlobsToCommitments_spec]
  unfold DeserializeBlobs
  rw [he]

/-- C2: `BlobToCommitment` fails exactly when `DeserializeBlob` fails, with that same
error; otherwise it returns, without error and without panic, the serialized
commitment `SerializeG1Point (CommitToPolynomial (DeserializeBlob blob) commitKey)`. -/
theorem BlobToCommitment_eq_pipeline (N : Nat) (X : Primitives r G1)
    (c : Context (List G1) (Domain r)) (blob : Blob) :
    (∀ e, DeserializeBlob r N blob = .error e →
        ∃ commitment, BlobToCommitment (specDeps N X) c blob = some (commitment, some e)) ∧
    (∀ poly, DeserializeBlob r N blob = .ok poly →
        BlobToCommitment (specDeps N X) c blob =
          some (SerializeG1Point X (CommitToPolynomial X N poly c.commitKey), none)) ∧
    ((∃ commitment e, BlobToCommitment (specDeps N X) c blob = some (commitment, some e)) ↔
        ∃ e, DeserializeBlob r N blob = .error e) := by
  rw [BlobToCommitment_spec]
  cases DeserializeBlob r N blob <;> simp

/-- C3 (non-binding contract): for a blob that deserializes, `ComputeBlobKZGProof`
returns no error for every commitment that deserializes as a valid G1 point, related
to the blob or not; it returns an error only when the commitment is malformed
(`InvalidEncoding`) or outside the subgroup (`NotInSubgroup`). -/
theorem ComputeBlobKZGProof_non_binding (N : Nat) (X : Primitives r G1)
    (c : Context (List G1) (Domain r)) (blob : Blob) (serializedComm : Commitment)
    (poly : List (ZMod r)) (hB : DeserializeBlob r N blob = .ok poly) :
    (∀ p, DeserializeG1Point X serializedComm = .ok p →
        (ComputeBlobKZGProof (specDeps N X) c blob serializedComm).2.2 = none) ∧
    ((ComputeBlobKZGProof (specDeps N X) c blob serializedComm).2.2 ≠ none →
        DeserializeG1Point X serializedComm = .error .InvalidEncoding ∨
        DeserializeG1Point X serializedComm = .error .NotInSubgroup) := by
  have hB' : (specDeps N X).DeserializeBlob blob = .ok poly := hB
  have hG : (specDeps N X).DeserializeG1Point serializedComm =
      DeserializeG1Point X serializedComm := rfl
  unfold ComputeBlobKZGProof
  rw [hB', hG]
  constructor
  · intro p hp
    rw [hp]
    rfl
  · intro hne
    unfold DeserializeG1Point at hne ⊢
    cases hd : X.decompress serializedComm with
    | none => left; rfl
    | some p =>
      cases hs : X.inSubgroup p with
      | false => right; simp [hs]
      | true =>
        exfalso
        apply hne
        simp only [hd, hs, if_true]
        rfl

/-- C4: `ComputeKZGProof` returns an error if and only if `DeserializeBlob` or
`DeserializeScalar` fails; the error is the blob's when the blob is invalid and the
point's otherwise; once both deserialize, the opening step produces no error. -/
theorem ComputeKZGProof_error (N : Nat) (X : Primitives r G1)
    (c : Context (List G1) (Domain r)) (blob : Blob) (inputPointBytes : Scalar) :
    ((ComputeKZGProof (specDeps N X) c blob inputPointBytes).2.2 ≠ none ↔
        (∃ e, DeserializeBlob r N blob = .error e) ∨
        (∃ e, DeserializeScalar r inputPointBytes = .error e)) ∧
    (ComputeKZGProof (specDeps N X) c blob inputPointBytes).2.2 =
      match DeserializeBlob r N blob with
      | .error e => some e
      | .ok _ =>
        match DeserializeScalar r inputPointBytes with
        | .error e => some e
        | .ok _ => none := by
  have hB : (specDeps N X).DeserializeBlob blob = DeserializeBlob r N blob := rfl
  have hS : (specDeps N X).DeserializeScalar inputPointBytes =
      DeserializeScalar r inputPointBytes := rfl
  unfold ComputeKZGProof
  rw [hB, hS]
  cases DeserializeBlob r N blob with
  | error e => exact ⟨by simp, rfl⟩
  | ok poly =>
    cases DeserializeScalar r inputPointBytes with
    | error e => exact ⟨by simp, rfl⟩
    | ok z => exact ⟨by simp [specDeps, Open], rfl⟩

/-- C5: when `BlobsToCommitments` succeeds, the returned list has the length of the
input and its `i`-th entry is the commitment `BlobToCommitment` returns (without
error) for the `i`-th blob. -/
theorem BlobsToCommitments_pointwise (N : Nat) (X : Primitives r G1)
    (c : Context (List G1) (Domain r)) (blobs : List Blob)
    (h : (BlobsToCommitments (specDeps N X) c blobs).2 = none) :
    (BlobsToCommitments (specDeps N X) c blobs).1.length = blobs.length ∧
    ∀ (i : Nat) (hi : i < blobs.length),
      ∃ commitment, (BlobsToCommitments (specDeps N X) c blobs).1[i]? = some commitment ∧
        BlobToCommitment (specDeps N X) c blobs[i] = some (commitment, none) := by
  rw [BlobsToCommitments_spec] at h ⊢
  cases hD : DeserializeBlobs r N blobs with
  | error e => rw [hD] at h; cases h
  | ok polys =>
    have hf := traverse_ok_forall₂ _ _ _ hD
    have hlen : blobs.length = polys.length := hf.length_eq
    refine ⟨by simp [hlen], ?_⟩
    intro i hi
    have hi' : i < polys.length := by omega
    have hget : DeserializeBlob r N blobs[i] = .ok polys[i] := List.Forall₂.get hf hi hi'
    refine ⟨SerializeG1Point X (CommitToPolynomial X N polys[i] c.commitKey), ?_, ?_⟩
    · simp [List.getElem?_eq_getElem hi']
    · rw [BlobToCommitment_spec, hget]

/-- C6 (domain-membership case): for a valid blob and a domain index `k`,
`ComputeKZGProof` at the serialized `k`-th domain root returns no error, and the
claimed value, the serialization of the polynomial's evaluation at that root, is
byte for byte the `k`-th 32-byte field element of the blob. -/
theorem ComputeKZGProof_at_domain_root (hp : r.Prime) (hr : r ≤ 2 ^ 256) (N : Nat)
    (X : Primitives r G1) (c : Context (List G1) (Domain r))
    (hlen : c.domain.roots.length = N) (hnd : c.domain.roots.Nodup)
    (blob : Blob) (poly : List (ZMod r)) (hB : DeserializeBlob r N blob = .ok poly)
    (k : Nat) (hk : k < N) :
    (ComputeKZGProof (specDeps N X) c blob
        (SerializeScalar (c.domain.roots.getD k 0))).2.2 = none ∧
    (ComputeKZGProof (specDeps N X) c blob
        (SerializeScalar (c.domain.roots.getD k 0))).2.1 =
      SerializeScalar (EvaluateAt c.domain poly (c.domain.roots.getD k 0)) ∧
    (ComputeKZGProof (specDeps N X) c blob
        (SerializeScalar (c.domain.roots.getD k 0))).2.1.val = blobChunk blob k := by
  haveI : Fact r.Prime := ⟨hp⟩
  haveI : NeZero r := ⟨hp.ne_zero⟩
  have hB' : (specDeps N X).DeserializeBlob blob = .ok poly := hB
  have hS0 : (specDeps N X).DeserializeScalar = DeserializeScalar r := rfl
  have hS : (specDeps N X).DeserializeScalar (SerializeScalar (c.domain.roots.getD k 0)) =
      .ok (c.domain.roots.getD k 0) := by
    rw [hS0]
    exact DeserializeScalar_SerializeScalar hr _
  have hO : (specDeps N X).Open c.domain poly (c.domain.roots.getD k 0) c.commitKey =
      .ok { QuotientComm := CommitToPolynomial X N
              (X.Divide c.domain poly (c.domain.roots.getD k 0)) c.commitKey,
            ClaimedValue := EvaluateAt c.domain poly (c.domain.roots.getD k 0) } := rfl
  have hres : ComputeKZGProof (specDeps N X) c blob
      (SerializeScalar (c.domain.roots.getD k 0)) =
      (SerializeG1Point X (CommitToPolynomial X N
          (X.Divide c.domain poly (c.domain.roots.getD k 0)) c.commitKey),
        SerializeScalar (EvaluateAt c.domain poly (c.domain.roots.getD k 0)), none) := by
    unfold ComputeKZGProof
    rw [hB', hS]
    dsimp only
    rw [hO]
    rfl
  rw [hres]
  refine ⟨rfl, rfl, ?_⟩
  show (SerializeScalar (EvaluateAt c.domain poly (c.domain.roots.getD k 0))).val = _
  rw [EvaluateAt_root c.domain hnd poly k (by omega)]
  exact SerializeScalar_of_deserializeChunk _ _ (DeserializeBlob_ok_chunk N blob poly hB k hk)

end ClaimsSpec

section ClaimsProve

variable {ε Polynomial G1Affine Fr CommitKey Domain : Type}

/-- C7: for a commitment that deserializes as a valid G1 point, and given that
`DeserializeScalar` undoes `SerializeScalar`, `ComputeBlobKZGProof blob comm` returns
the same proof, claimed value and error as `ComputeKZGProof` on the serialized
challenge `computeChallenge blob comm`: the commitment enters only through the
challenge, and both entry points serialize the claimed value with `SerializeScalar`. -/
theorem ComputeBlobKZGProof_eq_ComputeKZGProof
    (D : Deps ε Polynomial G1Affine Fr CommitKey Domain) (c : Context CommitKey Domain)
    (blob : Blob) (serializedComm : Commitment) (p : G1Affine)
    (hC : D.DeserializeG1Point serializedComm = .ok p)
    (hRoundTrip : ∀ x, D.DeserializeScalar (D.SerializeScalar x) = .ok x) :
    ComputeBlobKZGProof D c blob serializedComm =
      ComputeKZGProof D c blob (D.SerializeScalar (D.computeChallenge blob serializedComm)) := by
  unfold ComputeBlobKZGProof ComputeKZGProof
  rw [hC, hRoundTrip]

/-- C8: when `DeserializeG1Point` fails on the commitment with error `e`,
`ComputeBlobKZGProof` fails with exactly `e` if the blob deserializes, and with the
blob's error if the blob fails to deserialize (the blob is checked first). -/
theorem ComputeBlobKZGProof_invalid_commitment
    (D : Deps ε Polynomial G1Affine Fr CommitKey Domain) (c : Context CommitKey Domain)
    (blob : Blob) (serializedComm : Commitment) (e : ε)
    (hC : D.DeserializeG1Point serializedComm = .error e) :
    (∀ poly, D.DeserializeBlob blob = .ok poly →
        ComputeBlobKZGProof D c blob serializedComm =
          (Bytes.zero 48, Bytes.zero 32, some e)) ∧
    (∀ eBlob, D.DeserializeBlob blob = .error eBlob →
        ComputeBlobKZGProof D c blob serializedComm =
          (Bytes.zero 48, Bytes.zero 32, some eBlob)) := by
  unfold ComputeBlobKZGProof
  constructor
  · intro poly hB
    rw [hB, hC]
  · intro eBlob hB
    rw [hB]

/-- C9: whenever `ComputeKZGProof` or `ComputeBlobKZGProof` returns a non-nil error,
the returned proof is the all-zero 48 bytes and the returned claimed value the all-zero
32 bytes; whenever `BlobToCommitment` returns a non-nil error, the returned commitment
is the all-zero value. -/
theorem error_has_zero_outputs
    (D : Deps ε Polynomial G1Affine Fr CommitKey Domain) (c : Context CommitKey Domain)
    (blob : Blob) (inputPointBytes : Scalar) (serializedComm : Commitment) :
    ((ComputeKZGProof D c blob inputPointBytes).2.2 ≠ none →
        (ComputeKZGProof D c blob inputPointBytes).1 = Bytes.zero 48 ∧
        (ComputeKZGProof D c blob inputPointBytes).2.1 = Bytes.zero 32) ∧
    ((ComputeBlobKZGProof D c blob serializedComm).2.2 ≠ none →
        (ComputeBlobKZGProof D c blob serializedComm).1 = Bytes.zero 48 ∧
        (ComputeBlobKZGProof D c blob serializedComm).2.1 = Bytes.zero 32) ∧
    (∀ commitment err, BlobToCommitment D c blob = some (commitment, some err) →
        commitment = Bytes.zero 48) := by
  refine ⟨?_, ?_, ?_⟩
  · unfold ComputeKZGProof
    split
    · intro _; exact ⟨rfl, rfl⟩
    · split
      · intro _; exact ⟨rfl, rfl⟩
      · split
        · intro _; exact ⟨rfl, rfl⟩
        · intro h; exact absurd rfl h
  · unfold ComputeBlobKZGProof
    split
    · intro _; exact ⟨rfl, rfl⟩
    · split
      · intro _; exact ⟨rfl, rfl⟩
      · dsimp only
        split
        · intro _; exact ⟨rfl, rfl⟩
        · intro h; exact absurd rfl h
  · intro commitment err h
    unfold BlobToCommitment at h
    split at h
    · simp only [Option.some.injEq, Prod.mk.injEq] at h
      exact h.1.symm
    · split at h
      · cases h
      · simp at h

/-- C10: given that `DeserializeBlobs`, `CommitToPolynomials` and `SerializeG1Points`
return one output per input on success, whenever `BlobsToCommitments` on the
one-element list `[blob]` returns no error its list has exactly one element, so the
index expression `commitments[0]` of `BlobToCommitment` is in range and
`BlobToCommitment` does not panic. -/
theorem BlobToCommitment_index_in_range
    (D : Deps ε Polynomial G1Affine Fr CommitKey Domain) (c : Context CommitKey Domain)
    (blob : Blob)
    (hD : ∀ blobs polys, D.DeserializeBlobs blobs = .ok polys → polys.length = blobs.length)
    (hC : ∀ polys key comms, D.CommitToPolynomials polys key = .ok comms →
      comms.length = polys.length)
    (hS : ∀ comms, (D.SerializeG1Points comms).length = comms.length) :
    ((BlobsToCommitments D c [blob]).2 = none →
        (BlobsToCommitments D c [blob]).1.length = 1) ∧
    BlobToCommitment D c blob ≠ none := by
  have hlen : (BlobsToCommitments D c [blob]).2 = none →
      (BlobsToCommitments D c [blob]).1.length = 1 := by
    unfold BlobsToCommitments
    cases h1 : D.DeserializeBlobs [blob] with
    | error e => intro h; cases h
    | ok polys =>
      dsimp only
      cases h2 : D.CommitToPolynomials polys c.commitKey with
      | error e => intro h; cases h
      | ok comms =>
        intro _
        show (D.SerializeG1Points comms).length = 1
        rw [hS, hC polys c.commitKey comms h2, hD [blob] polys h1]
        rfl
  refine ⟨hlen, ?_⟩
  unfold BlobToCommitment
  split
  · simp
  · rename_i commitments heq
    have h1 : (BlobsToCommitments D c [blob]).1.length = 1 := hlen (by rw [heq])
    rw [heq] at h1
    have h0 : 0 < commitments.length := by
      have : commitments.length = 1 := h1
      omega
    rw [List.getElem?_eq_getElem h0]
    simp

end ClaimsProve

/-! ## The theorems at the small instance -/

section Witnesses

set_option maxRecDepth 100000

theorem specDeps_one_output_per_input {r : Nat} {G1 : Type} (N : Nat) (X : Primitives r G1) :
    (∀ blobs polys, (specDeps N X).DeserializeBlobs blobs = .ok polys →
        polys.length = blobs.length) ∧
    (∀ polys key comms, (specDeps N X).CommitToPolynomials polys key = .ok comms →
        comms.length = polys.length) ∧
    (∀ comms, ((specDeps N X).SerializeG1Points comms).length = comms.length) := by
  refine ⟨?_, ?_, ?_⟩
  · intro blobs polys h
    exact traverse_ok_length _ _ _ h
  · intro polys key comms h
    simp only [specDeps, CommitToPolynomials, Except.ok.injEq] at h
    subst h
    simp
  · intro comms
    simp [specDeps, SerializeG1Points]

theorem toy_scalar_round_trip (x : ZMod 17) :
    toyDeps.DeserializeScalar (toyDeps.SerializeScalar x) = .ok x := by
  have hD : toyDeps.DeserializeScalar = DeserializeScalar 17 := rfl
  have hS : toyDeps.SerializeScalar = SerializeScalar := rfl
  rw [hD, hS]
  exact DeserializeScalar_SerializeScalar (by norm_num) x

theorem BlobsToCommitments_fails_atomically_witness :
    DeserializeBlob 17 4 blobBad = .error .InvalidFieldElement ∧
    ∃ e, BlobsToCommitments toyDeps toyContext [blobA, blobBad] = ([], some e) :=
  ⟨by decide,
    BlobsToCommitments_fails_atomically 4 toyPrimitives toyContext [blobA, blobBad]
      ⟨blobBad, by simp, .InvalidFieldElement, by decide⟩⟩

theorem ComputeBlobKZGProof_non_binding_witness :
    BlobToCommitment toyDeps toyContext blobA ≠ some (toyPoint 4, none) ∧
    (ComputeBlobKZGProof toyDeps toyContext blobA (toyPoint 4)).2.2 = none :=
  ⟨by decide,
    (ComputeBlobKZGProof_non_binding 4 toyPrimitives toyContext blobA (toyPoint 4)
      [1, 2, 3, 4] (by decide)).1 4 (by decide)⟩

theorem BlobsToCommitments_pointwise_witness :
    (BlobsToCommitments toyDeps toyContext [blobA, blobB]).1.length = 2 ∧
    ∀ (i : Nat) (hi : i < [blobA, blobB].length),
      ∃ commitment,
        (BlobsToCommitments toyDeps toyContext [blobA, blobB]).1[i]? =
          some commitment ∧
        BlobToCommitment toyDeps toyContext [blobA, blobB][i] =
          some (commitment, none) :=
  BlobsToCommitments_pointwise 4 toyPrimitives toyContext [blobA, blobB] (by decide)

theorem ComputeKZGProof_at_domain_root_witness :
    (ComputeKZGProof toyDeps toyContext blobA
        (SerializeScalar (toyContext.domain.roots.getD 2 0))).2.2 = none ∧
    (ComputeKZGProof toyDeps toyContext blobA
        (SerializeScalar (toyContext.domain.roots.getD 2 0))).2.1 =
      SerializeScalar (EvaluateAt toyContext.domain [1, 2, 3, 4]
        (toyContext.domain.roots.getD 2 0)) ∧
    (ComputeKZGProof toyDeps toyContext blobA
        (SerializeScalar (toyContext.domain.roots.getD 2 0))).2.1.val =
      blobChunk blobA 2 :=
  ComputeKZGProof_at_domain_root (by norm_num) (by norm_num) 4 toyPrimitives toyContext
    (by decide) (by decide) blobA [1, 2, 3, 4] (by decide) 2 (by decide)

theorem ComputeBlobKZGProof_eq_ComputeKZGProof_witness :
    toyDeps.DeserializeG1Point (toyPoint 4) = .ok 4 ∧
    ComputeBlobKZGProof toyDeps toyContext blobA (toyPoint 4) =
      ComputeKZGProof toyDeps toyContext blobA
        (toyDeps.SerializeScalar (toyDeps.computeChallenge blobA (toyPoint 4))) :=
  ⟨by decide,
    ComputeBlobKZGProof_eq_ComputeKZGProof toyDeps toyContext blobA (toyPoint 4) 4
      (by decide) toy_scalar_round_trip⟩

theorem ComputeBlobKZGProof_invalid_commitment_witness :
    toyDeps.DeserializeG1Point (toyPoint 5) = .error .NotInSubgroup ∧
    ComputeBlobKZGProof toyDeps toyContext blobA (toyPoint 5) =
      (Bytes.zero 48, Bytes.zero 32, some .NotInSubgroup) ∧
    ComputeBlobKZGProof toyDeps toyContext blobBad (toyPoint 5) =
      (Bytes.zero 48, Bytes.zero 32, some .InvalidFieldElement) :=
  ⟨by decide,
    (ComputeBlobKZGProof_invalid_commitment toyDeps toyContext blobA (toyPoint 5)
      .NotInSubgroup (by decide)).1 [1, 2, 3, 4] (by decide),
    (ComputeBlobKZGProof_invalid_commitment toyDeps toyContext blobBad (toyPoint 5)
      .NotInSubgroup (by decide)).2 .InvalidFieldElement (by decide)⟩

theorem error_has_zero_outputs_witness :
    ((ComputeKZGProof toyDeps toyContext blobBad (Bytes.zero 32)).2.2 ≠ none ∧
      (ComputeKZGProof toyDeps toyContext blobBad (Bytes.zero 32)).1 = Bytes.zero 48 ∧
      (ComputeKZGProof toyDeps toyContext blobBad (Bytes.zero 32)).2.1 = Bytes.zero 32) ∧
    ((ComputeBlobKZGProof toyDeps toyContext blobBad (toyPoint 4)).2.2 ≠ none ∧
      (ComputeBlobKZGProof toyDeps toyContext blobBad (toyPoint 4)).1 = Bytes.zero 48 ∧
      (ComputeBlobKZGProof toyDeps toyContext blobBad (toyPoint 4)).2.1 = Bytes.zero 32) ∧
    ∃ commitment, BlobToCommitment toyDeps toyContext blobBad =
        some (commitment, some .InvalidFieldElement) ∧ commitment = Bytes.zero 48 :=
  have h := error_has_zero_outputs toyDeps toyContext blobBad (Bytes.zero 32) (toyPoint 4)
  ⟨⟨by decide, h.1 (by decide)⟩, ⟨by decide, h.2.1 (by decide)⟩,
    ⟨Bytes.zero 48, by decide, h.2.2 (Bytes.zero 48) .InvalidFieldElement (by decide)⟩⟩

theorem BlobToCommitment_index_in_range_witness :
    (BlobsToCommitments toyDeps toyContext [blobA]).2 = none ∧
    (BlobsToCommitments toyDeps toyContext [blobA]).1.length = 1 ∧
    BlobToCommitment toyDeps toyContext blobA ≠ none :=
  have h := BlobToCommitment_index_in_range toyDeps toyContext blobA
    (specDeps_one_output_per_input 4 toyPrimitives).1
    (specDeps_one_output_per_input 4 toyPrimitives).2.1
    (specDeps_one_output_per_input 4 toyPrimitives).2.2
  ⟨by decide, h.1 (by decide), h.2⟩

end Witnesses

end Danksharding
